import Mathlib

/-!
# Verification of the battleship engine (`engine.py`)

A shallow embedding of the board/fleet state machine of the repository:
coordinate validation and codec, ship placement, attack resolution and the
random-layout retry loop, together with theorems settling the frozen claims.

Modelling conventions:

* Python strings are embedded as `List Char` (coordinates, ship names, the
  per-cell `state` strings `''`, `'hit'`, `'miss'`).
* Python's `re.search(r'^([A-H])([0-8])$', s)` (no `MULTILINE`): `^` anchors
  at the start of the string, and `$` matches at the end of the string or
  just before a single trailing newline.  So the matched language is
  `[A-H][0-8]` optionally followed by `'\n'`.
* The `BattleGrid.grid` dict is embedded as an association list in insertion
  order; lookup and update act on the first matching key, and fresh keys are
  appended at the end, which coincides with Python dict semantics.
* Python objects `Ship` are mutable and shared by reference between the grid
  cells of one placement.  The embedding keeps the ships reachable from a
  grid in a store `BattleGrid.ships`; a cell's `ship` field holds the store
  index of its occupying ship (`none` embeds Python's `None`).  Each
  `place_ship` call allocates a fresh store entry, which is faithful to the
  repository, where every placement passes a distinct freshly-constructed
  ship object.  `reset` drops the store together with the cells, since after
  `reset` no ship object is reachable from the grid any more.
* Exceptions are embedded as explicit error values.  An operation returns
  the post-state together with the error, because a Python exception leaves
  all mutations performed so far in place.  `AttackErr.noneShipFault` embeds
  the `AttributeError` that `GridSpace.attack` would raise when dereferencing
  `self.ship.is_sunk()` on a cell whose `ship` is `None`.
-/

namespace Battleship

/-- Coordinates and other Python strings are lists of characters. -/
abbrev Coord := List Char

/-- `engine.py` `OutcomeState` enum. -/
inductive OutcomeState where
  | MISS
  | HIT
  | SUNK
  | WIN
deriving DecidableEq

/-- `engine.py` `Orientation` enum. -/
inductive Orientation where
  | PORTRAIT
  | LANDSCAPE
deriving DecidableEq

/-- `engine.py` `Outcome`: outcome state plus optional ship name. -/
structure Outcome where
  outcome_state : OutcomeState
  ship_name : Option (List Char)
deriving DecidableEq

/-- `Outcome.miss()` factory. -/
def Outcome.miss : Outcome := ⟨OutcomeState.MISS, none⟩

/-- `Outcome.hit(ship)` factory (stores `ship.name`). -/
def Outcome.hit (name : List Char) : Outcome := ⟨OutcomeState.HIT, some name⟩

/-- `Outcome.sunk(ship)` factory (stores `ship.name`). -/
def Outcome.sunk (name : List Char) : Outcome := ⟨OutcomeState.SUNK, some name⟩

/-- `Outcome.win(ship)` factory (stores `ship.name`). -/
def Outcome.win (name : List Char) : Outcome := ⟨OutcomeState.WIN, some name⟩

/-- Errors raised by placement: `InvalidCoord` and `AlreadyAssigned`,
each carrying the offending coordinate. -/
inductive PlaceErr where
  | invalidCoord (coord : Coord)
  | alreadyAssigned (coord : Coord)
deriving DecidableEq

/-- Errors raised by attack resolution: `AlreadyAttacked(coord)`, plus the
`AttributeError` a `None` ship dereference would raise. -/
inductive AttackErr where
  | alreadyAttacked (coord : Coord)
  | noneShipFault
deriving DecidableEq

/-- `engine.py` `Ship`: name, size, cumulative hit counter, display code.
`Ship.__init__` always starts `hits` at `0`. -/
structure Ship where
  name : List Char
  size : Nat
  hits : Nat
  code : Char
deriving DecidableEq

/-- `Ship.is_sunk()`: hit counter has reached the ship size. -/
def Ship.is_sunk (s : Ship) : Bool := s.size ≤ s.hits

/-- `Ship.carrier()` factory: size 5. -/
def Ship.carrier : Ship := ⟨['C','a','r','r','i','e','r'], 5, 0, 'C'⟩

/-- `Ship.battleship()` factory: size 4. -/
def Ship.battleship : Ship := ⟨['B','a','t','t','l','e','s','h','i','p'], 4, 0, 'B'⟩

/-- `Ship.cruiser()` factory: size 3. -/
def Ship.cruiser : Ship := ⟨['C','r','u','i','s','e','r'], 3, 0, 'R'⟩

/-- `Ship.submarine()` factory: size 3. -/
def Ship.submarine : Ship := ⟨['S','u','b','m','a','r','i','n','e'], 3, 0, 'S'⟩

/-- `Ship.destroyer()` factory: size 2. -/
def Ship.destroyer : Ship := ⟨['D','e','s','t','r','o','y','e','r'], 2, 0, 'D'⟩

/-- The module-level `fleet` list. -/
def fleet : List Ship :=
  [Ship.carrier, Ship.battleship, Ship.cruiser, Ship.submarine, Ship.destroyer]

/-- The cell state string `'hit'`. -/
def hitState : List Char := ['h','i','t']

/-- The cell state string `'miss'`. -/
def missState : List Char := ['m','i','s','s']

/-- `engine.py` `GridSpace`: the coordinate string, an optional reference to
the occupying ship (a store index, see module docstring) and the state
string (`''` unattacked, `'hit'`, `'miss'`). -/
structure GridSpace where
  coord : Coord
  ship : Option Nat
  state : List Char
deriving DecidableEq

/-- `engine.py` `BattleGrid`: the coordinate-keyed cell mapping (association
list in insertion order), the live-ship counter, and the store of ships
reachable from the grid (see module docstring). -/
structure BattleGrid where
  grid : List (Coord × GridSpace)
  active_ship_count : Int
  ships : List Ship
deriving DecidableEq

/-- The fresh grid produced by `BattleGrid.__init__`. -/
def BattleGrid.initial : BattleGrid := ⟨[], 0, []⟩

/-- Dict lookup: first (and in reachable states only) binding of a key. -/
def lookupCell : List (Coord × GridSpace) → Coord → Option GridSpace
  | [], _ => none
  | (k, c) :: rest, key => if k = key then some c else lookupCell rest key

/-- Dict update of an existing key: replaces the first binding. -/
def updateCell : List (Coord × GridSpace) → Coord → GridSpace → List (Coord × GridSpace)
  | [], _, _ => []
  | (k, c) :: rest, key, c' =>
      if k = key then (k, c') :: rest else (k, c) :: updateCell rest key c'

/-- Row letter test of the regex `^([A-H])([0-8])$`: first group. -/
def isRowLetter (c : Char) : Bool := 'A' ≤ c && c ≤ 'H'

/-- Column digit test of the regex `^([A-H])([0-8])$`: second group.
Note the source pattern accepts the digit `0`. -/
def isColDigit (c : Char) : Bool := '0' ≤ c && c ≤ '8'

/-- `BattleGrid.valid_coord`: whether `re.search(r'^([A-H])([0-8])$', s)`
matches.  Without `re.MULTILINE`, `$` also matches just before one trailing
newline, hence the three-character case. -/
def valid_coord (s : Coord) : Bool :=
  match s with
  | [l, d] => isRowLetter l && isColDigit d
  | [l, d, n] => isRowLetter l && isColDigit d && n = '\n'
  | _ => false

/-- `BattleGrid.split_coord`: the two regex groups, or `InvalidCoord`.
Each group is a (here single-character) string. -/
def split_coord (s : Coord) : Except PlaceErr (List Char × List Char) :=
  if valid_coord s then
    match s with
    | l :: d :: _ => Except.ok ([l], [d])
    | _ => Except.error (PlaceErr.invalidCoord s)
  else Except.error (PlaceErr.invalidCoord s)

/-- Python `int` on a decimal digit string (used on regex group 2). -/
def digitsToNat (s : List Char) : Nat :=
  s.foldl (fun a c => a * 10 + (c.toNat - 48)) 0

/-- `BattleGrid.coord_tuple_to_index_tuple`: converts a `(row, column)`
string pair into a zero-based index pair, with the source's base-3
(`digit_domain = 3`) positional treatment of multi-letter rows. -/
def coord_tuple_to_index_tuple (t : List Char × List Char) : Int × Int :=
  let x_ords : List Int := (t.1.map (fun c => (c.toNat : Int) - 64)).reverse
  let x_raised : List Int := x_ords.enum.map (fun p => p.2 * (3 : Int) ^ p.1)
  let x := x_raised.sum - 1
  let y := (digitsToNat t.2 : Int) - 1
  (x, y)

/-- `BattleGrid.index_tuple_to_coord_tuple`: converts a zero-based index
pair back into a `(row letter, column number)` pair. -/
def index_tuple_to_coord_tuple (t : Int × Int) : Char × Int :=
  (Char.ofNat (t.1 + 65).toNat, t.2 + 1)

/-- Fuel-driven digit accumulator for `natDigits`; the fuel is always
sufficient at the call site. -/
def natDigitsAux : Nat → Nat → List Char → List Char
  | 0, _, acc => acc
  | fuel + 1, n, acc =>
      if n < 10 then Nat.digitChar n :: acc
      else natDigitsAux fuel (n / 10) (Nat.digitChar (n % 10) :: acc)

/-- Decimal digit characters of a natural number (Python `str(n)`). -/
def natDigits (n : Nat) : List Char := natDigitsAux (n + 1) n []

/-- Decimal representation of a Python integer (Python `str(i)`). -/
def intToChars (i : Int) : List Char :=
  if i < 0 then '-' :: natDigits i.natAbs else natDigits i.toNat

/-- `BattleGrid._tuple_to_coord`: `'{0}{1}'.format(letter, number)`. -/
def tuple_to_coord (t : Char × Int) : Coord :=
  t.1 :: intToChars t.2

/-- `BattleGrid._calculate_coords`: the coordinates a ship of the given size
occupies from the origin tuple, extending rightward (landscape, increasing
column) or downward (portrait, increasing row). -/
def calculate_coords (ct : List Char × List Char) (o : Orientation) (size : Nat) :
    List Coord :=
  let rc := coord_tuple_to_index_tuple ct
  match o with
  | Orientation.LANDSCAPE =>
      (List.range size).map
        (fun (i : Nat) => tuple_to_coord (index_tuple_to_coord_tuple (rc.1, rc.2 + (i : Int))))
  | Orientation.PORTRAIT =>
      (List.range size).map
        (fun (i : Nat) => tuple_to_coord (index_tuple_to_coord_tuple (rc.1 + (i : Int), rc.2)))

/-- The regex groups of an origin that already passed `valid_coord`
(as `place_ship` re-derives them through `split_coord`). -/
def originGroups (origin : Coord) : List Char × List Char :=
  match origin with
  | l :: d :: _ => ([l], [d])
  | _ => ([], [])

/-- The cell list `place_ship` computes for a ship at an origin. -/
def placementCoords (origin : Coord) (o : Orientation) (size : Nat) : List Coord :=
  calculate_coords (originGroups origin) o size

/-- `BattleGrid._set_grid_space`: inserts a fresh ship cell, or fails with
`InvalidCoord` / `AlreadyAssigned`. -/
def set_grid_space (g : BattleGrid) (coord : Coord) (sid : Nat) :
    Except PlaceErr BattleGrid :=
  if valid_coord coord then
    match lookupCell g.grid coord with
    | none => Except.ok { g with grid := g.grid ++ [(coord, ⟨coord, some sid, []⟩)] }
    | some _ => Except.error (PlaceErr.alreadyAssigned coord)
  else Except.error (PlaceErr.invalidCoord coord)

/-- The validation loop of `place_ship`: scans the computed cells in order
and reports the first offending cell (`InvalidCoord` if it fails
`valid_coord`, else `AlreadyAssigned` if already occupied). -/
def validateCoords (g : BattleGrid) : List Coord → Option PlaceErr
  | [] => none
  | c :: rest =>
      if valid_coord c then
        if (lookupCell g.grid c).isSome then some (PlaceErr.alreadyAssigned c)
        else validateCoords g rest
      else some (PlaceErr.invalidCoord c)

/-- The commit loop of `place_ship`: sets one grid space per computed cell.
On an error the state at raise time is returned together with the error
(mutations already performed persist, as they do in Python). -/
def commitCoords (sid : Nat) : BattleGrid → List Coord → BattleGrid × Option PlaceErr
  | g, [] => (g, none)
  | g, c :: rest =>
      match set_grid_space g c sid with
      | Except.ok g' => commitCoords sid g' rest
      | Except.error e => (g, some e)

/-- `BattleGrid.place_ship`: validates the origin, computes the occupied
cells, validates all of them, then commits them and increments the live-ship
count.  Returns the post-state and the raised error, if any. -/
def place_ship (g : BattleGrid) (ship : Ship) (origin : Coord) (o : Orientation) :
    BattleGrid × Option PlaceErr :=
  if valid_coord origin then
    match split_coord origin with
    | Except.error e => (g, some e)
    | Except.ok ct =>
      let coords := calculate_coords ct o ship.size
      match validateCoords g coords with
      | some e => (g, some e)
      | none =>
        let sid := g.ships.length
        let g1 := { g with ships := g.ships ++ [ship] }
        match commitCoords sid g1 coords with
        | (g2, none) => ({ g2 with active_ship_count := g2.active_ship_count + 1 }, none)
        | (g2, some e) => (g2, some e)
  else (g, some (PlaceErr.invalidCoord origin))

/-- `GridSpace.attack` resolved against the grid owning the cell found at
`key`: on an unattacked cell, records the hit (`_hit`: cell state to
`'hit'`, ship hit counter incremented), then sinks/wins per the updated
counter; on an attacked cell raises `AlreadyAttacked(self.coord)`.  A cell
without a ship reaches the `self.ship.is_sunk()` dereference and faults. -/
def spaceAttack (g : BattleGrid) (key : Coord) (cell : GridSpace) :
    BattleGrid × Except AttackErr Outcome :=
  if cell.state = [] then
    match cell.ship with
    | none => (g, Except.error AttackErr.noneShipFault)
    | some sid =>
      match g.ships[sid]? with
      | none => (g, Except.error AttackErr.noneShipFault)
      | some sh =>
        let sh' : Ship := { sh with hits := sh.hits + 1 }
        let g' := { g with ships := g.ships.set sid sh',
                           grid := updateCell g.grid key { cell with state := hitState } }
        if sh'.size ≤ sh'.hits then
          let g2 := { g' with active_ship_count := g'.active_ship_count - 1 }
          if g2.active_ship_count = 0 then (g2, Except.ok (Outcome.win sh'.name))
          else (g2, Except.ok (Outcome.sunk sh'.name))
        else (g', Except.ok (Outcome.hit sh'.name))
  else (g, Except.error (AttackErr.alreadyAttacked cell.coord))

/-- `Player.receive_attack`: delegates to the cell at `coord` when one
exists, otherwise creates a miss cell and returns a miss outcome.  Performs
no coordinate validation. -/
def receive_attack (g : BattleGrid) (coord : Coord) :
    BattleGrid × Except AttackErr Outcome :=
  match lookupCell g.grid coord with
  | some cell => spaceAttack g coord cell
  | none =>
      ({ g with grid := g.grid ++ [(coord, ⟨coord, none, missState⟩)] },
        Except.ok Outcome.miss)

/-- `BattleGrid.reset`: clears the cell mapping and the live-ship count
(no ship object remains reachable from the grid, so the store is dropped). -/
def BattleGrid.reset (_g : BattleGrid) : BattleGrid :=
  { grid := [], active_ship_count := 0, ships := [] }

/-! ## The `random_layout` loop

`BattleGrid.random_layout` draws random `(coordinate, orientation)` pairs.
The embedding takes the draws as an explicit input stream and bounds both
loops by fuel; `none` means the fuel or the stream ran out before the
procedure completed.  The `attempted` set (initialised once, before the
outer loop) is embedded as a duplicate-free list built by
insert-if-not-member, so its length is the set's cardinality. -/

/-- A random draw: a coordinate (one letter `A`–`H` and one digit `1`–`8`
in the source) together with an orientation. -/
abbrev Draw := Coord × Orientation

/-- `max_attempts = 8 * 8 * 2` from `random_layout`. -/
def max_attempts : Nat := 8 * 8 * 2

/-- The mutable loop state of `random_layout`: the grid, the `attempted`
set and `ships_remaining`. -/
structure LayoutState where
  g : BattleGrid
  attempted : List Draw
  shipsRemaining : List Ship
deriving DecidableEq

/-- One body execution of the inner `while` of `random_layout` on a fresh
draw: skip if already attempted, else record the attempt, try to place the
head ship, and pop it on success (`AlreadyAssigned` / `InvalidCoord` are
swallowed). -/
def layoutStep (st : LayoutState) (d : Draw) : LayoutState :=
  if d ∈ st.attempted then st
  else
    match st.shipsRemaining with
    | [] => st
    | ship :: rest =>
      let att := st.attempted ++ [d]
      match place_ship st.g ship d.1 d.2 with
      | (g', none) => ⟨g', att, rest⟩
      | (g', some _) => ⟨g', att, st.shipsRemaining⟩

/-- The inner `while len(attempted) < max_attempts and ships_remaining`
loop, consuming the draw stream; returns the state and remaining stream at
loop exit, or `none` when fuel or stream ran out mid-loop. -/
def innerLoop : Nat → List Draw → LayoutState → Option (LayoutState × List Draw)
  | 0, _, _ => none
  | fuel + 1, stream, st =>
      if st.attempted.length < max_attempts ∧ st.shipsRemaining ≠ [] then
        match stream with
        | [] => none
        | d :: rest => innerLoop fuel rest (layoutStep st d)
      else some (st, stream)

/-- The outer `while ships_remaining` loop of `random_layout`: runs the
inner loop, and when ships remain afterwards, refills `ships_remaining`
from the original fleet and resets the grid — without ever clearing
`attempted`. -/
def randomLayoutLoop (ships : List Ship) : Nat → List Draw → LayoutState →
    Option BattleGrid
  | 0, _, _ => none
  | fuel + 1, stream, st =>
      if st.shipsRemaining = [] then some st.g
      else
        match innerLoop (fuel + 1) stream st with
        | none => none
        | some (st', stream') =>
            if st'.shipsRemaining = [] then some st'.g
            else
              randomLayoutLoop ships fuel stream'
                ⟨st'.g.reset, st'.attempted, ships⟩

/-- `BattleGrid.random_layout(ships)` with an explicit draw stream and
fuel. -/
def random_layout (g : BattleGrid) (ships : List Ship) (fuel : Nat)
    (stream : List Draw) : Option BattleGrid :=
  randomLayoutLoop ships fuel stream ⟨g, [], ships⟩

/-! ## The public-interface state machine

States reachable from a fresh grid through `place_ship`, `receive_attack`
and `reset`.  A placed ship enters through `Ship.__init__`, so its hit
counter is `0`; the game's ships all have positive size. -/

/-- A public-interface operation on one battle grid. -/
inductive Op where
  | place (ship : Ship) (origin : Coord) (o : Orientation)
  | attackOp (coord : Coord)
  | resetOp
deriving DecidableEq

/-- Legality of an operation: placed ships are freshly constructed
(`hits = 0`) ships of positive size, as everywhere in the repository. -/
def LegalOp : Op → Prop
  | Op.place ship _ _ => ship.hits = 0 ∧ 0 < ship.size
  | Op.attackOp _ => True
  | Op.resetOp => True

/-- The state transition of one operation (errors leave the returned
post-state, as the Python objects retain their mutations). -/
def step (g : BattleGrid) : Op → BattleGrid
  | Op.place ship origin o => (place_ship g ship origin o).1
  | Op.attackOp coord => (receive_attack g coord).1
  | Op.resetOp => g.reset

/-- Folding a sequence of operations from a state. -/
def runOps (g : BattleGrid) (ops : List Op) : BattleGrid :=
  ops.foldl step g

/-- The states reachable from a fresh grid by legal operations. -/
inductive Reachable : BattleGrid → Prop
  | init : Reachable BattleGrid.initial
  | next {g : BattleGrid} (op : Op) : Reachable g → LegalOp op → Reachable (step g op)

/-! ## Invariant bookkeeping -/

/-- Number of ships in a store that are not sunk. -/
def unsunkCount (ships : List Ship) : Nat :=
  (ships.filter (fun s => ! s.is_sunk)).length

/-- Number of grid cells occupied by ship `sid` that record a hit. -/
def hitCount (grid : List (Coord × GridSpace)) (sid : Nat) : Nat :=
  (grid.filter (fun kc => decide (kc.2.ship = some sid ∧ kc.2.state = hitState))).length

/-- Number of grid cells occupied by ship `sid`. -/
def shipCellCount (grid : List (Coord × GridSpace)) (sid : Nat) : Nat :=
  (grid.filter (fun kc => decide (kc.2.ship = some sid))).length

/-- Shape of a single cell: it either references a ship in the store and is
unattacked or hit, or it is an unoccupied miss cell. -/
def CellInv (nships : Nat) (cell : GridSpace) : Prop :=
  (∃ sid, cell.ship = some sid ∧ sid < nships ∧
    (cell.state = [] ∨ cell.state = hitState)) ∨
  (cell.ship = none ∧ cell.state = missState)

/-- The grid invariant: the live-ship count agrees with the store, every
cell is well-shaped, and each ship's hit counter and size agree with the
cells that reference it. -/
structure Inv (g : BattleGrid) : Prop where
  count_eq : g.active_ship_count = (unsunkCount g.ships : Int)
  cells : ∀ kc ∈ g.grid, CellInv g.ships.length kc.2
  hits_eq : ∀ sid sh, g.ships[sid]? = some sh → sh.hits = hitCount g.grid sid
  size_eq : ∀ sid sh, g.ships[sid]? = some sh → sh.size = shipCellCount g.grid sid

/-! ## Association-list (dict) lemmas -/

theorem lookupCell_cons (k0 : Coord) (c0 : GridSpace) (t : List (Coord × GridSpace))
    (key : Coord) :
    lookupCell ((k0, c0) :: t) key = if k0 = key then some c0 else lookupCell t key := rfl

theorem updateCell_cons (k0 : Coord) (c0 : GridSpace) (t : List (Coord × GridSpace))
    (key : Coord) (c' : GridSpace) :
    updateCell ((k0, c0) :: t) key c' =
      if k0 = key then (k0, c') :: t else (k0, c0) :: updateCell t key c' := rfl

theorem lookupCell_eq_none {l : List (Coord × GridSpace)} {k : Coord}
    (h : lookupCell l k = none) : ∀ p ∈ l, p.1 ≠ k := by
  induction l with
  | nil => intro p hp; cases hp
  | cons q t ih =>
      obtain ⟨k0, c0⟩ := q
      rw [lookupCell_cons] at h
      by_cases hq : k0 = k
      · simp [hq] at h
      · rw [if_neg hq] at h
        intro p hp
        rcases List.mem_cons.mp hp with rfl | hp
        · exact hq
        · exact ih h p hp

theorem lookupCell_mem {l : List (Coord × GridSpace)} {k : Coord} {c : GridSpace}
    (h : lookupCell l k = some c) : (k, c) ∈ l := by
  induction l with
  | nil => cases h
  | cons q t ih =>
      obtain ⟨k0, c0⟩ := q
      rw [lookupCell_cons] at h
      by_cases hq : k0 = k
      · rw [if_pos hq] at h
        cases h
        subst hq
        exact List.mem_cons_self _ _
      · rw [if_neg hq] at h
        exact List.mem_cons_of_mem _ (ih h)

theorem lookupCell_append_none {l1 l2 : List (Coord × GridSpace)} {k : Coord}
    (h : lookupCell l1 k = none) : lookupCell (l1 ++ l2) k = lookupCell l2 k := by
  induction l1 with
  | nil => rfl
  | cons q t ih =>
      obtain ⟨k0, c0⟩ := q
      rw [lookupCell_cons] at h
      rw [List.cons_append, lookupCell_cons]
      by_cases hq : k0 = k
      · simp [hq] at h
      · rw [if_neg hq] at h ⊢
        exact ih h

theorem lookupCell_append_some {l1 l2 : List (Coord × GridSpace)} {k : Coord}
    {c : GridSpace} (h : lookupCell l1 k = some c) :
    lookupCell (l1 ++ l2) k = some c := by
  induction l1 with
  | nil => cases h
  | cons q t ih =>
      obtain ⟨k0, c0⟩ := q
      rw [lookupCell_cons] at h
      rw [List.cons_append, lookupCell_cons]
      by_cases hq : k0 = k
      · rw [if_pos hq] at h ⊢
        exact h
      · rw [if_neg hq] at h ⊢
        exact ih h

theorem lookup_updateCell_self {l : List (Coord × GridSpace)} {k : Coord}
    {c : GridSpace} (c' : GridSpace) (h : lookupCell l k = some c) :
    lookupCell (updateCell l k c') k = some c' := by
  induction l with
  | nil => cases h
  | cons q t ih =>
      obtain ⟨k0, c0⟩ := q
      rw [lookupCell_cons] at h
      rw [updateCell_cons]
      by_cases hq : k0 = k
      · rw [if_pos hq, lookupCell_cons, if_pos hq]
      · rw [if_neg hq] at h
        rw [if_neg hq, lookupCell_cons, if_neg hq]
        exact ih h

theorem mem_updateCell {l : List (Coord × GridSpace)} {k : Coord} {c' : GridSpace}
    {p : Coord × GridSpace} (h : p ∈ updateCell l k c') : p ∈ l ∨ p = (k, c') := by
  induction l with
  | nil => cases h
  | cons q t ih =>
      obtain ⟨k0, c0⟩ := q
      rw [updateCell_cons] at h
      by_cases hq : k0 = k
      · rw [if_pos hq] at h
        rcases List.mem_cons.mp h with rfl | h
        · right; rw [hq]
        · left; exact List.mem_cons_of_mem _ h
      · rw [if_neg hq] at h
        rcases List.mem_cons.mp h with rfl | h
        · left; exact List.mem_cons_self _ _
        · rcases ih h with h | h
          · left; exact List.mem_cons_of_mem _ h
          · right; exact h

/-- Counting effect of a dict update: only the first binding of the key
changes, so the count of cells satisfying `p` changes exactly by the
replaced cell. -/
theorem length_filter_updateCell {l : List (Coord × GridSpace)} {k : Coord}
    {c : GridSpace} (c' : GridSpace) (p : GridSpace → Bool)
    (h : lookupCell l k = some c) :
    ((updateCell l k c').filter (fun kc => p kc.2)).length + (if p c then 1 else 0)
      = (l.filter (fun kc => p kc.2)).length + (if p c' then 1 else 0) := by
  induction l with
  | nil => cases h
  | cons q t ih =>
      obtain ⟨k0, c0⟩ := q
      rw [lookupCell_cons] at h
      rw [updateCell_cons]
      by_cases hq : k0 = k
      · rw [if_pos hq] at h
        cases h
        rw [if_pos hq]
        simp only [List.filter_cons]
        by_cases h1 : p c <;> by_cases h2 : p c' <;>
          simp only [h1, h2, if_pos, if_neg, Bool.false_eq_true, ite_true, ite_false,
            List.length_cons] <;> omega
      · rw [if_neg hq] at h
        rw [if_neg hq]
        have := ih h
        simp only [List.filter_cons]
        by_cases h1 : p c0 <;>
          simp only [h1, Bool.false_eq_true, ite_true, ite_false, List.length_cons] <;>
          omega

/-- Strict counting: an element satisfying `Q` but not `P`, where `P`
implies `Q` pointwise, forces strictly fewer `P`-elements. -/
theorem length_filter_lt {α : Type} {P Q : α → Bool} {l : List α} {x : α}
    (hx : x ∈ l) (hQ : Q x) (hP : ¬ P x) (himp : ∀ y, P y → Q y) :
    (l.filter P).length < (l.filter Q).length := by
  induction l with
  | nil => cases hx
  | cons a t ih =>
      simp only [List.filter_cons]
      rcases List.mem_cons.mp hx with rfl | hx
      · rw [if_pos hQ, if_neg (by simpa using hP)]
        have hle : (t.filter P).length ≤ (t.filter Q).length := by
          have hsub := List.monotone_filter_right t (p := P) (q := Q) ?_
          · exact hsub.length_le
          · intro y hy
            exact himp y hy
        simpa using Nat.lt_succ_of_le hle
      · by_cases ha : P a
        · rw [if_pos ha, if_pos (himp a ha)]
          simpa using ih hx
        · have := ih hx
          rw [if_neg (by simpa using ha)]
          by_cases hqa : Q a
          · rw [if_pos hqa]
            simp only [List.length_cons]
            omega
          · rw [if_neg (by simpa using hqa)]
            exact this

/-! ## Ship-store lemmas -/

theorem unsunkCount_append_single (l : List Ship) (s : Ship) :
    unsunkCount (l ++ [s]) = unsunkCount l + (if s.is_sunk then 0 else 1) := by
  unfold unsunkCount
  rw [List.filter_append]
  by_cases h : s.is_sunk <;> simp [h]

theorem unsunkCount_set {ships : List Ship} {sid : Nat} {sh : Ship} (sh' : Ship)
    (h : ships[sid]? = some sh) :
    unsunkCount (ships.set sid sh') + (if sh.is_sunk then 0 else 1)
      = unsunkCount ships + (if sh'.is_sunk then 0 else 1) := by
  induction ships generalizing sid with
  | nil => cases h
  | cons a t ih =>
      cases sid with
      | zero =>
          simp only [List.getElem?_cons_zero, Option.some.injEq] at h
          cases h
          show unsunkCount (sh' :: t) + _ = unsunkCount (sh :: t) + _
          unfold unsunkCount
          simp only [List.filter_cons]
          by_cases h1 : sh.is_sunk <;> by_cases h2 : sh'.is_sunk <;>
            simp only [h1, h2, Bool.not_true, Bool.not_false, Bool.false_eq_true,
              ite_true, ite_false, List.length_cons] <;> omega
      | succ m =>
          simp only [List.getElem?_cons_succ] at h
          show unsunkCount (a :: t.set m sh') + _ = unsunkCount (a :: t) + _
          have := ih h
          unfold unsunkCount at this ⊢
          simp only [List.filter_cons]
          by_cases h1 : a.is_sunk <;>
            simp only [h1, Bool.not_true, Bool.not_false, Bool.false_eq_true,
              ite_true, ite_false, List.length_cons] <;> omega

/-! ## Character and decimal-digit lemmas -/

/-- `Nat.digitChar` falls to the default branch above 15. -/
theorem digitChar_eq_star {n : Nat} (h : 16 ≤ n) : Nat.digitChar n = '*' := by
  unfold Nat.digitChar
  repeat rw [if_neg (by omega)]

/-- `Nat.digitChar` never produces a newline. -/
theorem digitChar_ne_newline (n : Nat) : Nat.digitChar n ≠ '\n' := by
  by_cases h : n < 16
  · interval_cases n <;> decide
  · rw [digitChar_eq_star (by omega)]
    decide

/-- Code point of a decimal digit character. -/
theorem digitChar_toNat {n : Nat} (h : n < 10) : (Nat.digitChar n).toNat = 48 + n := by
  interval_cases n <;> rfl

theorem char_toNat_inj {a b : Char} (h : a.toNat = b.toNat) : a = b := by
  apply Char.ext
  exact UInt32.toNat.inj h

theorem charOfNat_toNat_of_valid {n : Nat} (h : n.isValidChar) :
    (Char.ofNat n).toNat = n := by
  rw [Char.ofNat, dif_pos h]
  rfl

theorem charOfNat_toNat_of_invalid {n : Nat} (h : ¬ n.isValidChar) :
    (Char.ofNat n).toNat = 0 := by
  rw [Char.ofNat, dif_neg h]
  rfl

theorem natDigitsAux_shape : ∀ (fuel n : Nat) (acc : List Char), n < fuel →
    ∃ l, natDigitsAux fuel n acc = l ++ Nat.digitChar (n % 10) :: acc ∧
      (l = [] → n < 10)
  | 0, n, _, h => absurd h (Nat.not_lt_zero n)
  | fuel + 1, n, acc, h => by
      show ∃ l, (if n < 10 then Nat.digitChar n :: acc
        else natDigitsAux fuel (n / 10) (Nat.digitChar (n % 10) :: acc)) = _ ∧ _
      by_cases h10 : n < 10
      · refine ⟨[], ?_, fun _ => h10⟩
        rw [if_pos h10, Nat.mod_eq_of_lt h10]
        rfl
      · rw [if_neg h10]
        have hlt : n / 10 < fuel := by
          have := Nat.div_lt_self (by omega : 0 < n) (by omega : 1 < 10)
          omega
        obtain ⟨l', hl', -⟩ := natDigitsAux_shape fuel (n / 10)
          (Nat.digitChar (n % 10) :: acc) hlt
        refine ⟨l' ++ [Nat.digitChar (n / 10 % 10)], ?_, ?_⟩
        · rw [hl']
          simp
        · intro hc
          simp at hc

/-- The decimal digits of `n` end with the digit of `n % 10`, and consist of
that digit alone exactly when `n < 10`. -/
theorem natDigits_shape (n : Nat) :
    ∃ l, natDigits n = l ++ [Nat.digitChar (n % 10)] ∧ (l = [] → n < 10) := by
  obtain ⟨l, hl, h10⟩ := natDigitsAux_shape (n + 1) n [] (Nat.lt_succ_self n)
  exact ⟨l, hl, h10⟩

theorem natDigits_of_lt_ten {n : Nat} (h : n < 10) :
    natDigits n = [Nat.digitChar n] := by
  unfold natDigits natDigitsAux
  rw [if_pos h]


/-! ## Coordinate codec lemmas -/

/-- Bounds extracted from the character order (the order on `Char` is the
order on code points). -/
theorem char_le_toNat {a b : Char} (h : a ≤ b) : a.toNat ≤ b.toNat := h

/-- Evaluation of the decoder on a single-letter, single-digit group pair. -/
theorem decode_single (l d : Char) :
    coord_tuple_to_index_tuple ([l], [d])
      = ((l.toNat : Int) - 65, ((d.toNat - 48 : Nat) : Int) - 1) := by
  unfold coord_tuple_to_index_tuple digitsToNat
  simp [List.enum]
  omega

/-- Evaluation of the encoder. -/
theorem encode_eval (x y : Int) :
    tuple_to_coord (index_tuple_to_coord_tuple (x, y))
      = Char.ofNat (x + 65).toNat :: intToChars (y + 1) := rfl

/-- C8: for every valid coordinate string (one row letter `A`–`H` followed
by one column digit `1`–`8`), decoding to the zero-based index pair and
re-encoding through the tuple formatter yields the original string. -/
theorem C8_encode_decode_round_trip (l d : Char)
    (hl1 : 'A' ≤ l) (hl2 : l ≤ 'H') (hd1 : '1' ≤ d) (hd2 : d ≤ '8') :
    tuple_to_coord (index_tuple_to_coord_tuple
      (coord_tuple_to_index_tuple ([l], [d]))) = [l, d] := by
  have hl1' : 65 ≤ l.toNat := char_le_toNat hl1
  have hl2' : l.toNat ≤ 72 := char_le_toNat hl2
  have hd1' : 49 ≤ d.toNat := char_le_toNat hd1
  have hd2' : d.toNat ≤ 56 := char_le_toNat hd2
  rw [decode_single, encode_eval]
  have hx : ((l.toNat : Int) - 65 + 65).toNat = l.toNat := by omega
  have hy : ((d.toNat - 48 : Nat) : Int) - 1 + 1 = ((d.toNat - 48 : Nat) : Int) := by omega
  rw [hx, Char.ofNat_toNat, hy]
  have hneg : ¬ ((d.toNat - 48 : Nat) : Int) < 0 := by omega
  rw [intToChars, if_neg hneg]
  rw [Int.toNat_ofNat]
  rw [natDigits_of_lt_ten (by omega)]
  have : Nat.digitChar (d.toNat - 48) = d := by
    apply char_toNat_inj
    rw [digitChar_toNat (by omega)]
    omega
  rw [this]

theorem C8_encode_decode_round_trip_witness : tuple_to_coord (index_tuple_to_coord_tuple
    (coord_tuple_to_index_tuple (['A'], ['7']))) = ['A', '7'] :=
  C8_encode_decode_round_trip 'A' '7' (by decide) (by decide) (by decide) (by decide)


/-! ## Regex-validity structure lemmas -/

/-- Structure of a string accepted by the coordinate regex: a row letter
followed by a column digit and an optional trailing newline. -/
theorem valid_coord_cons {c0 : Char} {tail : List Char}
    (h : valid_coord (c0 :: tail) = true) :
    ('A' ≤ c0 ∧ c0 ≤ 'H') ∧
      ∃ d, ('0' ≤ d ∧ d ≤ '8') ∧ (tail = [d] ∨ tail = [d, '\n']) := by
  match tail with
  | [] => exact absurd h (by simp [valid_coord])
  | [d] =>
      unfold valid_coord isRowLetter isColDigit at h
      simp only [Bool.and_eq_true, decide_eq_true_eq] at h
      exact ⟨⟨h.1.1, h.1.2⟩, d, ⟨h.2.1, h.2.2⟩, Or.inl rfl⟩
  | [d, n] =>
      unfold valid_coord isRowLetter isColDigit at h
      simp only [Bool.and_eq_true, decide_eq_true_eq] at h
      obtain ⟨⟨⟨hA, hH⟩, h0, h8⟩, hn⟩ := h
      exact ⟨⟨hA, hH⟩, d, ⟨h0, h8⟩, Or.inr (by rw [hn])⟩
  | _ :: _ :: _ :: _ :: _ => exact absurd h (by simp [valid_coord])

/-- `natDigits` never returns the empty list. -/
theorem natDigits_ne_nil (n : Nat) : natDigits n ≠ [] := by
  obtain ⟨l, hl, -⟩ := natDigits_shape n
  rw [hl]
  simp

/-- If prefixing the digits of `v` with a letter passes the coordinate
regex, then `v` is a single digit. -/
theorem valid_natDigits_tail {c0 : Char} {v : Nat}
    (h : valid_coord (c0 :: natDigits v) = true) :
    v < 10 ∧ natDigits v = [Nat.digitChar v] := by
  obtain ⟨-, d, -, htail⟩ := valid_coord_cons h
  obtain ⟨l, hl, h10⟩ := natDigits_shape v
  rcases htail with htail | htail
  · have hnil : l = [] := by
      rcases l with - | ⟨a, t⟩
      · rfl
      · rw [hl] at htail
        have := congrArg List.length htail
        simp at this
    have hv : v < 10 := h10 hnil
    exact ⟨hv, natDigits_of_lt_ten hv⟩
  · exfalso
    rw [hl] at htail
    have := congrArg List.reverse htail
    simp [List.reverse_append] at this
    exact absurd this.1 (digitChar_ne_newline (v % 10))

/-- If a coordinate built from `intToChars` is regex-valid, the formatted
integer is a nonnegative single digit, and such coordinates determine the
integer. -/
theorem valid_intToChars {c0 : Char} {w : Int}
    (h : valid_coord (c0 :: intToChars w) = true) :
    0 ≤ w ∧ w.toNat < 10 ∧ intToChars w = [Nat.digitChar w.toNat] := by
  by_cases hw : w < 0
  · exfalso
    rw [intToChars, if_pos hw] at h
    obtain ⟨-, d, ⟨h0, -⟩, htail⟩ := valid_coord_cons h
    rcases htail with htail | htail
    · have := congrArg List.length htail
      simp at this
      exact absurd this (natDigits_ne_nil _)
    · have hd : d = '-' := by
        have := congrArg (fun l => l.head?) htail
        simpa using this.symm
      rw [hd] at h0
      exact absurd (char_le_toNat h0) (by decide)
  · rw [intToChars, if_neg hw] at h ⊢
    obtain ⟨hv, hd⟩ := valid_natDigits_tail h
    exact ⟨by omega, hv, hd⟩

/-- Valid single-digit coordinate tails determine the formatted integer. -/
theorem valid_intToChars_inj {c0 c1 : Char} {w1 w2 : Int}
    (h1 : valid_coord (c0 :: intToChars w1) = true)
    (h2 : valid_coord (c1 :: intToChars w2) = true)
    (heq : intToChars w1 = intToChars w2) : w1 = w2 := by
  obtain ⟨hw1, hv1, hd1⟩ := valid_intToChars h1
  obtain ⟨hw2, hv2, hd2⟩ := valid_intToChars h2
  rw [hd1, hd2] at heq
  have hchar : (Nat.digitChar w1.toNat).toNat = (Nat.digitChar w2.toNat).toNat := by
    rw [List.cons.injEq] at heq
    rw [heq.1]
  rw [digitChar_toNat hv1, digitChar_toNat hv2] at hchar
  omega

/-- A regex-valid coordinate whose head is `Char.ofNat n` pins down `n` as
the head code point (the head must be a letter `A`–`H`, which rules out the
out-of-range fallback `'\x00'`). -/
theorem valid_charOfNat_head {n : Nat} {tail : List Char}
    (h : valid_coord (Char.ofNat n :: tail) = true) :
    (Char.ofNat n).toNat = n := by
  obtain ⟨⟨hA, -⟩, -⟩ := valid_coord_cons h
  by_cases hval : n.isValidChar
  · exact charOfNat_toNat_of_valid hval
  · exfalso
    have h0 : (Char.ofNat n).toNat = 0 := charOfNat_toNat_of_invalid hval
    have h65 := char_le_toNat hA
    rw [h0] at h65
    exact absurd h65 (by decide)


/-! ## Placement lemmas -/

theorem calculate_coords_landscape (ct : List Char × List Char) (size : Nat) :
    calculate_coords ct Orientation.LANDSCAPE size
      = (List.range size).map (fun (i : Nat) => tuple_to_coord (index_tuple_to_coord_tuple
          ((coord_tuple_to_index_tuple ct).1, (coord_tuple_to_index_tuple ct).2 + (i : Int)))) := rfl

theorem calculate_coords_portrait (ct : List Char × List Char) (size : Nat) :
    calculate_coords ct Orientation.PORTRAIT size
      = (List.range size).map (fun (i : Nat) => tuple_to_coord (index_tuple_to_coord_tuple
          ((coord_tuple_to_index_tuple ct).1 + (i : Int), (coord_tuple_to_index_tuple ct).2))) := rfl

/-- When every computed placement cell passes the coordinate regex, the
computed cells are pairwise distinct (valid cells are a single letter and a
single digit, both strictly increasing along the ship). -/
theorem calculate_coords_nodup {ct : List Char × List Char} {o : Orientation}
    {size : Nat} (hx : 0 ≤ (coord_tuple_to_index_tuple ct).1)
    (hv : ∀ c ∈ calculate_coords ct o size, valid_coord c = true) :
    (calculate_coords ct o size).Nodup := by
  cases o with
  | LANDSCAPE =>
      rw [calculate_coords_landscape] at hv ⊢
      refine List.Nodup.map_on ?_ (List.nodup_range size)
      intro i hi j hj heq
      rw [encode_eval, encode_eval, List.cons.injEq] at heq
      have hvi := hv _ (List.mem_map_of_mem _ hi)
      have hvj := hv _ (List.mem_map_of_mem _ hj)
      rw [encode_eval] at hvi hvj
      have := valid_intToChars_inj hvi hvj heq.2
      omega
  | PORTRAIT =>
      rw [calculate_coords_portrait] at hv ⊢
      refine List.Nodup.map_on ?_ (List.nodup_range size)
      intro i hi j hj heq
      rw [encode_eval, encode_eval, List.cons.injEq] at heq
      have hvi := hv _ (List.mem_map_of_mem _ hi)
      have hvj := hv _ (List.mem_map_of_mem _ hj)
      rw [encode_eval] at hvi hvj
      have hni := valid_charOfNat_head hvi
      have hnj := valid_charOfNat_head hvj
      rw [heq.1] at hni
      have hsame := hni.symm.trans hnj
      have hi0 : (0 : Int) ≤ (i : Int) := Int.natCast_nonneg i
      have hj0 : (0 : Int) ≤ (j : Int) := Int.natCast_nonneg j
      omega

theorem split_coord_of_valid {origin : Coord} (h : valid_coord origin = true) :
    split_coord origin = Except.ok (originGroups origin) := by
  match origin with
  | [] => exact absurd h (by simp [valid_coord])
  | [l] => exact absurd h (by simp [valid_coord])
  | l :: d :: rest =>
      rw [split_coord, if_pos h]
      rfl

theorem originGroups_eval {origin : Coord} (h : valid_coord origin = true) :
    ∃ l d, ('A' ≤ l ∧ l ≤ 'H') ∧ ('0' ≤ d ∧ d ≤ '8') ∧
      originGroups origin = ([l], [d]) := by
  match origin with
  | [] => exact absurd h (by simp [valid_coord])
  | l :: tail =>
      obtain ⟨hl, d, hd, htail⟩ := valid_coord_cons h
      refine ⟨l, d, hl, hd, ?_⟩
      rcases htail with rfl | rfl <;> rfl

/-- The decoded row index of a regex-valid origin is nonnegative. -/
theorem origin_x_nonneg {origin : Coord} (h : valid_coord origin = true) :
    0 ≤ (coord_tuple_to_index_tuple (originGroups origin)).1 := by
  obtain ⟨l, d, ⟨hA, -⟩, -, hg⟩ := originGroups_eval h
  rw [hg, decode_single]
  have h65 : 65 ≤ l.toNat := char_le_toNat hA
  show 0 ≤ (l.toNat : Int) - 65
  omega

theorem validateCoords_none {g : BattleGrid} : ∀ {coords : List Coord},
    validateCoords g coords = none →
    ∀ c ∈ coords, valid_coord c = true ∧ lookupCell g.grid c = none
  | [], _, c, hc => absurd hc (List.not_mem_nil c)
  | c0 :: rest, h, c, hc => by
      rw [validateCoords] at h
      by_cases h1 : valid_coord c0
      · rw [if_pos h1] at h
        by_cases h2 : (lookupCell g.grid c0).isSome
        · rw [if_pos h2] at h
          cases h
        · rw [if_neg h2] at h
          rcases List.mem_cons.mp hc with rfl | hc
          · exact ⟨h1, Option.not_isSome_iff_eq_none.mp h2⟩
          · exact validateCoords_none h c hc
      · rw [if_neg h1] at h
        cases h

/-- Committing pre-validated, pairwise-distinct cells appends exactly one
cell per coordinate and raises nothing. -/
theorem commitCoords_append (sid : Nat) : ∀ {g : BattleGrid} {coords : List Coord},
    (∀ c ∈ coords, valid_coord c = true ∧ lookupCell g.grid c = none) →
    coords.Nodup →
    commitCoords sid g coords =
      ({ g with grid := g.grid ++ coords.map (fun c => (c, ⟨c, some sid, []⟩)) }, none)
  | g, [], _, _ => by simp [commitCoords]
  | g, c0 :: rest, hok, hnd => by
      obtain ⟨hv0, hl0⟩ := hok c0 (List.mem_cons_self c0 rest)
      have hset : set_grid_space g c0 sid
          = Except.ok { g with grid := g.grid ++ [(c0, ⟨c0, some sid, []⟩)] } := by
        rw [set_grid_space, if_pos hv0, hl0]
      have hrest : ∀ c ∈ rest,
          valid_coord c = true ∧
          lookupCell (g.grid ++ [(c0, ⟨c0, some sid, []⟩)]) c = none := by
        intro c hc
        obtain ⟨hv, hl⟩ := hok c (List.mem_cons_of_mem c0 hc)
        refine ⟨hv, ?_⟩
        rw [lookupCell_append_none hl, lookupCell_cons]
        rw [if_neg ?_]
        · rfl
        · intro hne
          exact (List.nodup_cons.mp hnd).1 (hne ▸ hc)
      rw [commitCoords, hset]
      show commitCoords sid { g with grid := g.grid ++ [(c0, ⟨c0, some sid, []⟩)] } rest = _
      rw [commitCoords_append sid hrest (List.nodup_cons.mp hnd).2]
      simp

/-- Characterization of a `place_ship` call that passes validation. -/
theorem place_ship_of_validated {g : BattleGrid} {ship : Ship} {origin : Coord}
    {o : Orientation} (hvo : valid_coord origin = true)
    (hval : validateCoords g (placementCoords origin o ship.size) = none) :
    place_ship g ship origin o =
      ({ grid := g.grid ++ (placementCoords origin o ship.size).map
            (fun c => (c, ⟨c, some g.ships.length, []⟩)),
         active_ship_count := g.active_ship_count + 1,
         ships := g.ships ++ [ship] }, none) := by
  have hnd : (placementCoords origin o ship.size).Nodup := by
    apply calculate_coords_nodup (origin_x_nonneg hvo)
    intro c hc
    exact (validateCoords_none hval c hc).1
  have hok : ∀ c ∈ placementCoords origin o ship.size,
      valid_coord c = true ∧
      lookupCell ({ g with ships := g.ships ++ [ship] } : BattleGrid).grid c = none := by
    intro c hc
    exact validateCoords_none hval c hc
  rw [place_ship, if_pos hvo, split_coord_of_valid hvo]
  show (match validateCoords g (placementCoords origin o ship.size) with
    | some e => (g, some e)
    | none => _) = _
  rw [hval]
  show (match commitCoords g.ships.length { g with ships := g.ships ++ [ship] }
      (placementCoords origin o ship.size) with
    | (g2, none) => ({ g2 with active_ship_count := g2.active_ship_count + 1 }, none)
    | (g2, some e) => (g2, some e)) = _
  rw [commitCoords_append g.ships.length hok hnd]


/-! ## Attack-resolution lemmas -/

theorem receive_attack_miss {g : BattleGrid} {coord : Coord}
    (h : lookupCell g.grid coord = none) :
    receive_attack g coord =
      ({ g with grid := g.grid ++ [(coord, ⟨coord, none, missState⟩)] },
        Except.ok Outcome.miss) := by
  unfold receive_attack
  rw [h]

theorem receive_attack_already {g : BattleGrid} {coord : Coord} {cell : GridSpace}
    (hl : lookupCell g.grid coord = some cell) (hs : cell.state ≠ []) :
    receive_attack g coord = (g, Except.error (AttackErr.alreadyAttacked cell.coord)) := by
  unfold receive_attack
  rw [hl]
  show spaceAttack g coord cell = _
  unfold spaceAttack
  rw [if_neg hs]

/-- Attack resolution on an unattacked occupied cell, written exactly along
the branches of `GridSpace.attack`. -/
theorem receive_attack_hit {g : BattleGrid} {coord : Coord} {cell : GridSpace}
    {sid : Nat} {sh : Ship}
    (hl : lookupCell g.grid coord = some cell) (hs : cell.state = [])
    (hship : cell.ship = some sid) (hsh : g.ships[sid]? = some sh) :
    receive_attack g coord =
      (let sh' : Ship := { sh with hits := sh.hits + 1 }
       let g' : BattleGrid :=
         { g with
           ships := g.ships.set sid sh',
           grid := updateCell g.grid coord { cell with state := hitState } }
       if sh'.size ≤ sh'.hits then
         let g2 : BattleGrid := { g' with active_ship_count := g'.active_ship_count - 1 }
         if g2.active_ship_count = 0 then (g2, Except.ok (Outcome.win sh'.name))
         else (g2, Except.ok (Outcome.sunk sh'.name))
       else (g', Except.ok (Outcome.hit sh'.name))) := by
  unfold receive_attack
  rw [hl]
  show spaceAttack g coord cell = _
  unfold spaceAttack
  rw [if_pos hs, hship]
  simp only [hsh]


theorem receive_attack_hit_fst {g : BattleGrid} {coord : Coord} {cell : GridSpace}
    {sid : Nat} {sh : Ship}
    (hl : lookupCell g.grid coord = some cell) (hs : cell.state = [])
    (hship : cell.ship = some sid) (hsh : g.ships[sid]? = some sh) :
    (receive_attack g coord).1 =
      { grid := updateCell g.grid coord { cell with state := hitState },
        active_ship_count :=
          if sh.size ≤ sh.hits + 1 then g.active_ship_count - 1
          else g.active_ship_count,
        ships := g.ships.set sid { sh with hits := sh.hits + 1 } } := by
  rw [receive_attack_hit hl hs hship hsh]
  by_cases hsunk : sh.size ≤ sh.hits + 1
  · by_cases hz : g.active_ship_count - 1 = 0 <;> simp [hsunk, hz]
  · simp [hsunk]

theorem receive_attack_hit_snd {g : BattleGrid} {coord : Coord} {cell : GridSpace}
    {sid : Nat} {sh : Ship}
    (hl : lookupCell g.grid coord = some cell) (hs : cell.state = [])
    (hship : cell.ship = some sid) (hsh : g.ships[sid]? = some sh) :
    (receive_attack g coord).2 =
      Except.ok (if sh.size ≤ sh.hits + 1 then
          (if g.active_ship_count - 1 = 0 then Outcome.win sh.name
           else Outcome.sunk sh.name)
        else Outcome.hit sh.name) := by
  rw [receive_attack_hit hl hs hship hsh]
  by_cases hsunk : sh.size ≤ sh.hits + 1
  · by_cases hz : g.active_ship_count - 1 = 0 <;> simp [hsunk, hz]
  · simp [hsunk]

theorem receive_attack_fault_none {g : BattleGrid} {coord : Coord} {cell : GridSpace}
    (hl : lookupCell g.grid coord = some cell) (hs : cell.state = [])
    (hship : cell.ship = none) :
    receive_attack g coord = (g, Except.error AttackErr.noneShipFault) := by
  unfold receive_attack
  rw [hl]
  show spaceAttack g coord cell = _
  unfold spaceAttack
  rw [if_pos hs, hship]

theorem receive_attack_fault_dangling {g : BattleGrid} {coord : Coord}
    {cell : GridSpace} {sid : Nat}
    (hl : lookupCell g.grid coord = some cell) (hs : cell.state = [])
    (hship : cell.ship = some sid) (hsh : g.ships[sid]? = none) :
    receive_attack g coord = (g, Except.error AttackErr.noneShipFault) := by
  unfold receive_attack
  rw [hl]
  show spaceAttack g coord cell = _
  unfold spaceAttack
  rw [if_pos hs, hship]
  simp only [hsh]


/-! ## Counting wrappers -/

theorem hitCount_updateCell {l : List (Coord × GridSpace)} {k : Coord}
    {c : GridSpace} (c' : GridSpace) (sid : Nat) (h : lookupCell l k = some c) :
    hitCount (updateCell l k c') sid
        + (if c.ship = some sid ∧ c.state = hitState then 1 else 0)
      = hitCount l sid
        + (if c'.ship = some sid ∧ c'.state = hitState then 1 else 0) := by
  have := length_filter_updateCell c'
    (fun cc => decide (cc.ship = some sid ∧ cc.state = hitState)) h
  simpa [hitCount] using this

theorem shipCellCount_updateCell {l : List (Coord × GridSpace)} {k : Coord}
    {c : GridSpace} (c' : GridSpace) (sid : Nat) (h : lookupCell l k = some c) :
    shipCellCount (updateCell l k c') sid + (if c.ship = some sid then 1 else 0)
      = shipCellCount l sid + (if c'.ship = some sid then 1 else 0) := by
  have := length_filter_updateCell c' (fun cc => decide (cc.ship = some sid)) h
  simpa [shipCellCount] using this

theorem hitCount_append (l1 l2 : List (Coord × GridSpace)) (sid : Nat) :
    hitCount (l1 ++ l2) sid = hitCount l1 sid + hitCount l2 sid := by
  simp [hitCount, List.filter_append]

theorem shipCellCount_append (l1 l2 : List (Coord × GridSpace)) (sid : Nat) :
    shipCellCount (l1 ++ l2) sid = shipCellCount l1 sid + shipCellCount l2 sid := by
  simp [shipCellCount, List.filter_append]

/-! ## Invariant preservation -/

theorem inv_initial : Inv BattleGrid.initial := by
  refine ⟨rfl, ?_, ?_, ?_⟩
  · intro kc hkc
    cases hkc
  · intro sid sh hsh
    cases hsh
  · intro sid sh hsh
    cases hsh

theorem inv_reset (g : BattleGrid) : Inv g.reset := by
  refine ⟨rfl, ?_, ?_, ?_⟩
  · intro kc hkc
    cases hkc
  · intro sid sh hsh
    cases hsh
  · intro sid sh hsh
    cases hsh

theorem inv_receive_attack {g : BattleGrid} (hInv : Inv g) (coord : Coord) :
    Inv (receive_attack g coord).1 := by
  match hl : lookupCell g.grid coord with
  | none =>
      rw [receive_attack_miss hl]
      refine ⟨hInv.count_eq, ?_, ?_, ?_⟩
      · intro kc hkc
        rcases List.mem_append.mp hkc with hold | hnew
        · exact hInv.cells kc hold
        · rcases List.mem_singleton.mp hnew with rfl
          exact Or.inr ⟨rfl, rfl⟩
      · intro sid sh hsh
        rw [hitCount_append]
        have hz : hitCount [(coord, ⟨coord, none, missState⟩)] sid = 0 := by
          simp [hitCount]
        rw [hz]
        exact hInv.hits_eq sid sh hsh
      · intro sid sh hsh
        rw [shipCellCount_append]
        have hz : shipCellCount [(coord, ⟨coord, none, missState⟩)] sid = 0 := by
          simp [shipCellCount]
        rw [hz]
        exact hInv.size_eq sid sh hsh
  | some cell =>
      by_cases hs : cell.state = []
      · match hship : cell.ship with
        | none =>
            rw [receive_attack_fault_none hl hs hship]
            exact hInv
        | some sid =>
            match hsh : g.ships[sid]? with
            | none =>
                rw [receive_attack_fault_dangling hl hs hship hsh]
                exact hInv
            | some sh =>
                have hmem : (coord, cell) ∈ g.grid := lookupCell_mem hl
                have hsidlt : sid < g.ships.length := by
                  rcases List.getElem?_eq_some.mp hsh with ⟨hlt, -⟩
                  exact hlt
                have hhits : sh.hits = hitCount g.grid sid := hInv.hits_eq sid sh hsh
                have hsize : sh.size = shipCellCount g.grid sid := hInv.size_eq sid sh hsh
                have hlt : hitCount g.grid sid < shipCellCount g.grid sid := by
                  refine length_filter_lt hmem ?_ ?_ ?_
                  · simp [hship]
                  · simp [hs, hitState]
                  · intro y hy
                    simp only [decide_eq_true_eq] at hy ⊢
                    exact hy.1
                have hshipHit : ({ cell with state := hitState } : GridSpace).ship
                    = some sid := hship
                rw [receive_attack_hit_fst hl hs hship hsh]
                refine ⟨?_, ?_, ?_, ?_⟩
                · show (if sh.size ≤ sh.hits + 1 then g.active_ship_count - 1
                      else g.active_ship_count)
                    = ((unsunkCount (g.ships.set sid
                        ({ sh with hits := sh.hits + 1 } : Ship)) : Nat) : Int)
                  have hset := unsunkCount_set
                    ({ sh with hits := sh.hits + 1 } : Ship) hsh
                  have hcount := hInv.count_eq
                  have hnotsunk : sh.is_sunk = false := by
                    unfold Ship.is_sunk
                    simp only [decide_eq_false_iff_not, Nat.not_le]
                    omega
                  by_cases hsk : sh.size ≤ sh.hits + 1
                  · have hsunk2 : ({ sh with hits := sh.hits + 1 } : Ship).is_sunk
                        = true := by
                      unfold Ship.is_sunk
                      simpa using hsk
                    rw [if_pos hsk]
                    rw [hnotsunk, hsunk2] at hset
                    simp only [Bool.false_eq_true, ite_false, ite_true] at hset
                    omega
                  · have hsunk2 : ({ sh with hits := sh.hits + 1 } : Ship).is_sunk
                        = false := by
                      unfold Ship.is_sunk
                      simp only [decide_eq_false_iff_not, Nat.not_le]
                      omega
                    rw [if_neg hsk]
                    rw [hnotsunk, hsunk2] at hset
                    simp only [Bool.false_eq_true, ite_false] at hset
                    omega
                · intro kc hkc
                  rcases mem_updateCell hkc with hold | rfl
                  · have hc := hInv.cells kc hold
                    unfold CellInv at hc ⊢
                    simpa only [List.length_set] using hc
                  · refine Or.inl ⟨sid, hshipHit, ?_, Or.inr rfl⟩
                    simpa only [List.length_set] using hsidlt
                · intro sid2 sh2 hget
                  replace hget : (g.ships.set sid
                      ({ sh with hits := sh.hits + 1 } : Ship))[sid2]? = some sh2 := hget
                  by_cases hid : sid2 = sid
                  · subst hid
                    rw [List.getElem?_set_eq_of_lt _ hsidlt] at hget
                    cases hget
                    have heq := hitCount_updateCell
                      ({ cell with state := hitState } : GridSpace) sid2 hl
                    rw [if_neg ?_, if_pos ⟨hshipHit, rfl⟩] at heq
                    · show sh.hits + 1 = hitCount (updateCell g.grid coord
                        ({ cell with state := hitState } : GridSpace)) sid2
                      omega
                    · rintro ⟨-, hst⟩
                      rw [hs] at hst
                      exact absurd hst.symm (by simp [hitState])
                  · rw [List.getElem?_set_ne (by omega)] at hget
                    have heq := hitCount_updateCell
                      ({ cell with state := hitState } : GridSpace) sid2 hl
                    rw [if_neg ?_, if_neg ?_] at heq
                    · show sh2.hits = hitCount (updateCell g.grid coord
                        ({ cell with state := hitState } : GridSpace)) sid2
                      have := hInv.hits_eq sid2 sh2 hget
                      omega
                    · rintro ⟨hsp, -⟩
                      rw [hshipHit] at hsp
                      exact hid (by injection hsp with h; exact h.symm) 
                    · rintro ⟨hsp, -⟩
                      rw [hship] at hsp
                      exact hid (by injection hsp with h; exact h.symm)
                · intro sid2 sh2 hget
                  replace hget : (g.ships.set sid
                      ({ sh with hits := sh.hits + 1 } : Ship))[sid2]? = some sh2 := hget
                  have heq := shipCellCount_updateCell
                    ({ cell with state := hitState } : GridSpace) sid2 hl
                  have hsame : (if cell.ship = some sid2 then (1 : Nat) else 0)
                      = (if ({ cell with state := hitState } : GridSpace).ship
                          = some sid2 then 1 else 0) := rfl
                  by_cases hid : sid2 = sid
                  · subst hid
                    rw [List.getElem?_set_eq_of_lt _ hsidlt] at hget
                    cases hget
                    show sh.size = shipCellCount (updateCell g.grid coord
                      ({ cell with state := hitState } : GridSpace)) sid2
                    omega
                  · rw [List.getElem?_set_ne (by omega)] at hget
                    show sh2.size = shipCellCount (updateCell g.grid coord
                      ({ cell with state := hitState } : GridSpace)) sid2
                    have := hInv.size_eq sid2 sh2 hget
                    omega
      · rw [receive_attack_already hl hs]
        exact hInv


theorem place_ship_eq_invalid {g : BattleGrid} {ship : Ship} {origin : Coord}
    {o : Orientation} (h : valid_coord origin = false) :
    place_ship g ship origin o = (g, some (PlaceErr.invalidCoord origin)) := by
  rw [place_ship, if_neg (by simp [h])]

theorem place_ship_eq_err {g : BattleGrid} {ship : Ship} {origin : Coord}
    {o : Orientation} {e : PlaceErr} (hvo : valid_coord origin = true)
    (hval : validateCoords g (placementCoords origin o ship.size) = some e) :
    place_ship g ship origin o = (g, some e) := by
  unfold placementCoords at hval
  rw [place_ship, if_pos hvo, split_coord_of_valid hvo]
  simp only [hval]

theorem placementCoords_length (origin : Coord) (o : Orientation) (size : Nat) :
    (placementCoords origin o size).length = size := by
  unfold placementCoords
  cases o
  · rw [calculate_coords_portrait]
    simp
  · rw [calculate_coords_landscape]
    simp

theorem hitCount_eq_zero {l : List (Coord × GridSpace)} {sid : Nat}
    (h : ∀ kc ∈ l, ¬ (kc.2.ship = some sid ∧ kc.2.state = hitState)) :
    hitCount l sid = 0 := by
  simp only [hitCount, List.length_eq_zero, List.filter_eq_nil]
  intro kc hkc
  simpa using h kc hkc

theorem shipCellCount_eq_zero {l : List (Coord × GridSpace)} {sid : Nat}
    (h : ∀ kc ∈ l, ¬ kc.2.ship = some sid) :
    shipCellCount l sid = 0 := by
  simp only [shipCellCount, List.length_eq_zero, List.filter_eq_nil]
  intro kc hkc
  simpa using h kc hkc

theorem shipCellCount_eq_length {l : List (Coord × GridSpace)} {sid : Nat}
    (h : ∀ kc ∈ l, kc.2.ship = some sid) :
    shipCellCount l sid = l.length := by
  unfold shipCellCount
  rw [List.filter_eq_self.mpr]
  intro kc hkc
  simpa using h kc hkc

theorem inv_place_ship {g : BattleGrid} (hInv : Inv g) (ship : Ship)
    (origin : Coord) (o : Orientation) (hh0 : ship.hits = 0)
    (hpos : 0 < ship.size) : Inv (place_ship g ship origin o).1 := by
  by_cases hvo : valid_coord origin
  · cases hval : validateCoords g (placementCoords origin o ship.size) with
    | some e =>
        rw [place_ship_eq_err hvo hval]
        exact hInv
    | none =>
        rw [place_ship_of_validated hvo hval]
        have hnew : ∀ kc ∈ (placementCoords origin o ship.size).map
            (fun c => ((c, ⟨c, some g.ships.length, []⟩) : Coord × GridSpace)),
            kc.2.ship = some g.ships.length ∧ kc.2.state = [] := by
          intro kc hkc
          rcases List.mem_map.mp hkc with ⟨c, -, rfl⟩
          exact ⟨rfl, rfl⟩
        refine ⟨?_, ?_, ?_, ?_⟩
        · show g.active_ship_count + 1
            = ((unsunkCount (g.ships ++ [ship]) : Nat) : Int)
          rw [unsunkCount_append_single]
          have hns : ship.is_sunk = false := by
            unfold Ship.is_sunk
            simp only [decide_eq_false_iff_not, Nat.not_le]
            omega
          rw [hns]
          have := hInv.count_eq
          simp only [Bool.false_eq_true, ite_false]
          omega
        · intro kc hkc
          rcases List.mem_append.mp hkc with hold | hnewm
          · rcases hInv.cells kc hold with ⟨sid, h1, h2, h3⟩ | hmiss
            · refine Or.inl ⟨sid, h1, ?_, h3⟩
              simp only [List.length_append, List.length_cons, List.length_nil]
              omega
            · exact Or.inr hmiss
          · obtain ⟨h1, h2⟩ := hnew kc hnewm
            refine Or.inl ⟨g.ships.length, h1, ?_, Or.inl h2⟩
            simp only [List.length_append, List.length_cons, List.length_nil]
            omega
        · intro sid sh hget
          rw [hitCount_append]
          have hz : hitCount ((placementCoords origin o ship.size).map
              (fun c => ((c, ⟨c, some g.ships.length, []⟩) : Coord × GridSpace)))
              sid = 0 := by
            apply hitCount_eq_zero
            intro kc hkc
            rintro ⟨-, hst⟩
            rw [(hnew kc hkc).2] at hst
            exact absurd hst.symm (by simp [hitState])
          rw [hz]
          by_cases hsid : sid < g.ships.length
          · rw [List.getElem?_append_left hsid] at hget
            have := hInv.hits_eq sid sh hget
            omega
          · rw [List.getElem?_append_right (by omega)] at hget
            have hzero : sid - g.ships.length = 0 := by
              rcases List.getElem?_eq_some.mp hget with ⟨hlt, -⟩
              simp only [List.length_cons, List.length_nil] at hlt
              omega
            rw [hzero] at hget
            simp only [List.getElem?_cons_zero, Option.some.injEq] at hget
            subst hget
            have hsid' : sid = g.ships.length := by omega
            subst hsid'
            have hgz : hitCount g.grid g.ships.length = 0 := by
              apply hitCount_eq_zero
              intro kc hkc
              rintro ⟨hsp, -⟩
              rcases hInv.cells kc hkc with ⟨sid', h1, h2, -⟩ | ⟨h1, -⟩
              · rw [h1] at hsp
                injection hsp with h'
                omega
              · rw [h1] at hsp
                cases hsp
            rw [hgz, hh0]
        · intro sid sh hget
          rw [shipCellCount_append]
          by_cases hsid : sid < g.ships.length
          · rw [List.getElem?_append_left hsid] at hget
            have hz : shipCellCount ((placementCoords origin o ship.size).map
                (fun c => ((c, ⟨c, some g.ships.length, []⟩) : Coord × GridSpace)))
                sid = 0 := by
              apply shipCellCount_eq_zero
              intro kc hkc hsp
              rw [(hnew kc hkc).1] at hsp
              injection hsp with h'
              omega
            rw [hz]
            have := hInv.size_eq sid sh hget
            omega
          · rw [List.getElem?_append_right (by omega)] at hget
            have hzero : sid - g.ships.length = 0 := by
              rcases List.getElem?_eq_some.mp hget with ⟨hlt, -⟩
              simp only [List.length_cons, List.length_nil] at hlt
              omega
            rw [hzero] at hget
            simp only [List.getElem?_cons_zero, Option.some.injEq] at hget
            subst hget
            have hsid' : sid = g.ships.length := by omega
            subst hsid'
            have hgz : shipCellCount g.grid g.ships.length = 0 := by
              apply shipCellCount_eq_zero
              intro kc hkc hsp
              rcases hInv.cells kc hkc with ⟨sid', h1, h2, -⟩ | ⟨h1, -⟩
              · rw [h1] at hsp
                injection hsp with h'
                omega
              · rw [h1] at hsp
                cases hsp
            have hln : ((placementCoords origin o ship.size).map
                (fun c => ((c, ⟨c, some g.ships.length, []⟩) : Coord × GridSpace))).length
                = ship.size := by
              rw [List.length_map, placementCoords_length]
            rw [hgz, shipCellCount_eq_length (fun kc hkc => (hnew kc hkc).1), hln]
            omega
  · rw [place_ship_eq_invalid (by simpa using hvo)]
    exact hInv

theorem inv_step {g : BattleGrid} (hInv : Inv g) {op : Op} (hop : LegalOp op) :
    Inv (step g op) := by
  cases op with
  | place ship origin o => exact inv_place_ship hInv ship origin o hop.1 hop.2
  | attackOp coord => exact inv_receive_attack hInv coord
  | resetOp => exact inv_reset g

theorem reachable_inv {g : BattleGrid} (h : Reachable g) : Inv g := by
  induction h with
  | init => exact inv_initial
  | next op hr hop ih => exact inv_step ih hop


/-- All-or-nothing: whenever `place_ship` raises, the returned state is the
input state (validation happens before any mutation, and the commit loop
cannot fail on validated cells). -/
theorem place_ship_fail_fst {g : BattleGrid} {ship : Ship} {origin : Coord}
    {o : Orientation} {e : PlaceErr}
    (h : (place_ship g ship origin o).2 = some e) :
    (place_ship g ship origin o).1 = g := by
  by_cases hvo : valid_coord origin
  · cases hval : validateCoords g (placementCoords origin o ship.size) with
    | some e2 => rw [place_ship_eq_err hvo hval]
    | none =>
        rw [place_ship_of_validated hvo hval] at h
        cases h
  · rw [place_ship_eq_invalid (by simpa using hvo)]

/-- One attack lowers the number of unsunk ships in the store by at most
one. -/
theorem unsunk_receive_attack (g : BattleGrid) (coord : Coord) :
    unsunkCount g.ships ≤ unsunkCount (receive_attack g coord).1.ships + 1 := by
  match hl : lookupCell g.grid coord with
  | none =>
      rw [receive_attack_miss hl]
      show unsunkCount g.ships ≤ unsunkCount g.ships + 1
      omega
  | some cell =>
      by_cases hs : cell.state = []
      · match hship : cell.ship with
        | none =>
            rw [receive_attack_fault_none hl hs hship]
            show unsunkCount g.ships ≤ unsunkCount g.ships + 1
            omega
        | some sid =>
            match hsh : g.ships[sid]? with
            | none =>
                rw [receive_attack_fault_dangling hl hs hship hsh]
                show unsunkCount g.ships ≤ unsunkCount g.ships + 1
                omega
            | some sh =>
                rw [receive_attack_hit_fst hl hs hship hsh]
                show unsunkCount g.ships
                  ≤ unsunkCount (g.ships.set sid
                      ({ sh with hits := sh.hits + 1 } : Ship)) + 1
                have hset := unsunkCount_set
                  ({ sh with hits := sh.hits + 1 } : Ship) hsh
                by_cases h1 : sh.is_sunk <;>
                  by_cases h2 : ({ sh with hits := sh.hits + 1 } : Ship).is_sunk <;>
                  simp [h1, h2] at hset <;> omega
      · rw [receive_attack_already hl hs]
        show unsunkCount g.ships ≤ unsunkCount g.ships + 1
        omega

/-- Once `attempted` holds `max_attempts` pairs, the inner loop of
`random_layout` exits immediately and the outer loop makes no further
progress: the procedure never completes, whatever fuel and randomness it is
given.  (`attempted` is never cleared by the reset path.) -/
theorem randomLayoutLoop_exhausted (ships : List Ship) (hships : ships ≠ []) :
    ∀ (fuel : Nat) (stream : List Draw) (st : LayoutState),
      max_attempts ≤ st.attempted.length → st.shipsRemaining ≠ [] →
      randomLayoutLoop ships fuel stream st = none
  | 0, _, _, _, _ => rfl
  | fuel + 1, stream, st, hfull, hrem => by
      have hinner : innerLoop (fuel + 1) stream st = some (st, stream) := by
        rw [show innerLoop (fuel + 1) stream st
            = if st.attempted.length < max_attempts ∧ st.shipsRemaining ≠ [] then
                (match stream with
                 | [] => none
                 | d :: rest => innerLoop fuel rest (layoutStep st d))
              else some (st, stream) from rfl, if_neg ?_]
        rintro ⟨hlt, -⟩
        omega
      rw [show randomLayoutLoop ships (fuel + 1) stream st
          = (if st.shipsRemaining = [] then some st.g
             else match innerLoop (fuel + 1) stream st with
               | none => none
               | some (st', stream') =>
                   if st'.shipsRemaining = [] then some st'.g
                   else randomLayoutLoop ships fuel stream'
                     ⟨st'.g.reset, st'.attempted, ships⟩) from rfl,
        if_neg hrem, hinner]
      show (if st.shipsRemaining = [] then some st.g
        else randomLayoutLoop ships fuel stream ⟨st.g.reset, st.attempted, ships⟩) = none
      rw [if_neg hrem]
      exact randomLayoutLoop_exhausted ships hships fuel stream
        ⟨st.g.reset, st.attempted, ships⟩ hfull hships


/-! ## Claim theorems -/

/-- C1: attacking a grid cell that is occupied by a ship and not yet
attacked transitions the cell to the `'hit'` state and increments that
ship's hit counter by one; if the counter then meets the ship's size the
live-ship count is decremented and the outcome is `sunk` carrying the
ship's name, unless the decremented count is zero, in which case the
outcome is `win` carrying the ship's name; if the ship is not yet sunk the
outcome is `hit` carrying the ship's name and the count is unchanged. -/
theorem C1_attack_occupied_cell (g : BattleGrid) (coord : Coord)
    (cell : GridSpace) (sid : Nat) (sh : Ship)
    (hl : lookupCell g.grid coord = some cell) (hs : cell.state = [])
    (hship : cell.ship = some sid) (hsh : g.ships[sid]? = some sh) :
    lookupCell (receive_attack g coord).1.grid coord
        = some { cell with state := hitState }
    ∧ (receive_attack g coord).1.ships[sid]? = some { sh with hits := sh.hits + 1 }
    ∧ (sh.size ≤ sh.hits + 1 →
        (receive_attack g coord).1.active_ship_count = g.active_ship_count - 1
        ∧ (g.active_ship_count - 1 = 0 →
            (receive_attack g coord).2 = Except.ok (Outcome.win sh.name))
        ∧ (g.active_ship_count - 1 ≠ 0 →
            (receive_attack g coord).2 = Except.ok (Outcome.sunk sh.name)))
    ∧ (sh.hits + 1 < sh.size →
        (receive_attack g coord).1.active_ship_count = g.active_ship_count
        ∧ (receive_attack g coord).2 = Except.ok (Outcome.hit sh.name)) := by
  have hsidlt : sid < g.ships.length := (List.getElem?_eq_some.mp hsh).1
  have hfst := receive_attack_hit_fst hl hs hship hsh
  have hsnd := receive_attack_hit_snd hl hs hship hsh
  refine ⟨?_, ?_, ?_, ?_⟩
  · rw [hfst]
    exact lookup_updateCell_self _ hl
  · rw [hfst]
    exact List.getElem?_set_eq_of_lt _ hsidlt
  · intro hsunk
    refine ⟨?_, ?_, ?_⟩
    · rw [hfst]
      show (if sh.size ≤ sh.hits + 1 then g.active_ship_count - 1
        else g.active_ship_count) = _
      rw [if_pos hsunk]
    · intro hz
      rw [hsnd, if_pos hsunk, if_pos hz]
    · intro hz
      rw [hsnd, if_pos hsunk, if_neg hz]
  · intro hlt
    constructor
    · rw [hfst]
      show (if sh.size ≤ sh.hits + 1 then g.active_ship_count - 1
        else g.active_ship_count) = _
      rw [if_neg (by omega)]
    · rw [hsnd, if_neg (by omega)]

theorem C1_attack_occupied_cell_witness :
    lookupCell (receive_attack
        (⟨[(['A','1'], ⟨['A','1'], some 0, []⟩)], 1, [Ship.submarine]⟩ : BattleGrid)
        ['A','1']).1.grid ['A','1']
      = some ⟨['A','1'], some 0, hitState⟩
    ∧ (receive_attack
        (⟨[(['A','1'], ⟨['A','1'], some 0, []⟩)], 1, [Ship.submarine]⟩ : BattleGrid)
        ['A','1']).1.ships[0]? = some { Ship.submarine with hits := 1 }
    ∧ (receive_attack
        (⟨[(['A','1'], ⟨['A','1'], some 0, []⟩)], 1, [Ship.submarine]⟩ : BattleGrid)
        ['A','1']).1.active_ship_count = 1
    ∧ (receive_attack
        (⟨[(['A','1'], ⟨['A','1'], some 0, []⟩)], 1, [Ship.submarine]⟩ : BattleGrid)
        ['A','1']).2 = Except.ok (Outcome.hit Ship.submarine.name) := by
  have h := C1_attack_occupied_cell
    (⟨[(['A','1'], ⟨['A','1'], some 0, []⟩)], 1, [Ship.submarine]⟩ : BattleGrid)
    ['A','1'] ⟨['A','1'], some 0, []⟩ 0 Ship.submarine rfl rfl rfl rfl
  obtain ⟨h1, h2, -, h4⟩ := h
  have h4' := h4 (by decide)
  exact ⟨h1, h2, h4'.1, h4'.2⟩

/-- C2 (amended): `place_ship` scans the computed cells in origin-first
order and raises at the first offending cell — `InvalidCoord` if that cell
fails the validity test, `AlreadyAssigned` if it is already occupied (an
invalid origin is rejected first, with `InvalidCoord` naming the origin),
exactly as encoded by `validateCoords`; in every failing case the returned
grid equals the input grid (all-or-nothing). -/
theorem C2_placement_failure_amended (g : BattleGrid) (ship : Ship)
    (origin : Coord) (o : Orientation) :
    (∀ e, (place_ship g ship origin o).2 = some e →
      (place_ship g ship origin o).1 = g)
    ∧ (valid_coord origin = false →
        (place_ship g ship origin o).2 = some (PlaceErr.invalidCoord origin))
    ∧ (valid_coord origin = true →
        (place_ship g ship origin o).2
          = validateCoords g (placementCoords origin o ship.size)) := by
  refine ⟨fun e he => place_ship_fail_fst he, ?_, ?_⟩
  · intro hvo
    rw [place_ship_eq_invalid hvo]
  · intro hvo
    cases hval : validateCoords g (placementCoords origin o ship.size) with
    | some e => rw [place_ship_eq_err hvo hval]
    | none => rw [place_ship_of_validated hvo hval]

/-- C2 counterexample: placing the Carrier portrait at `E1` on a grid whose
cell `F1` is occupied computes the cells `E1,F1,G1,H1,I1`; `I1` is out of
range, yet the call fails with `AlreadyAssigned('F1')` — not with
`InvalidCoord('I1')` as the claim requires whenever some computed cell
falls outside the board. -/
theorem C2_placement_failure_counterexample :
    valid_coord ['I','1'] = false
    ∧ ['I','1'] ∈ placementCoords ['E','1'] Orientation.PORTRAIT Ship.carrier.size
    ∧ (place_ship (place_ship BattleGrid.initial Ship.destroyer ['F','1']
        Orientation.PORTRAIT).1 Ship.carrier ['E','1'] Orientation.PORTRAIT).2
      = some (PlaceErr.alreadyAssigned ['F','1']) := by
  decide

theorem C2_placement_failure_witness :
    (place_ship BattleGrid.initial Ship.carrier ['A','8'] Orientation.LANDSCAPE).1
      = BattleGrid.initial
    ∧ (place_ship BattleGrid.initial Ship.carrier ['A','9'] Orientation.LANDSCAPE).2
      = some (PlaceErr.invalidCoord ['A','9'])
    ∧ (place_ship BattleGrid.initial Ship.carrier ['A','8'] Orientation.LANDSCAPE).2
      = validateCoords BattleGrid.initial
          (placementCoords ['A','8'] Orientation.LANDSCAPE Ship.carrier.size) := by
  refine ⟨(C2_placement_failure_amended BattleGrid.initial Ship.carrier ['A','8']
      Orientation.LANDSCAPE).1 (PlaceErr.invalidCoord ['A','9']) (by decide),
    (C2_placement_failure_amended BattleGrid.initial Ship.carrier ['A','9']
      Orientation.LANDSCAPE).2.1 (by decide),
    (C2_placement_failure_amended BattleGrid.initial Ship.carrier ['A','8']
      Orientation.LANDSCAPE).2.2 (by decide)⟩

/-- C3 (code bug): the claim says exactly one letter `A`–`H` followed by
one digit `1`–`8`, and the spec requires any string whose decoded index
falls outside `[0,8)×[0,8)` to be invalid.  The source regex is
`^([A-H])([0-8])$`: it accepts `'A0'`, whose decoded column index is `-1`
(off the 8×8 board), and — Python `$` matching before a trailing
newline — also accepts `'A7\n'`. -/
theorem C3_valid_coord_code_bug :
    valid_coord ['A','0'] = true
    ∧ ¬ ('1' ≤ '0')
    ∧ (coord_tuple_to_index_tuple (['A'], ['0'])).2 < 0
    ∧ valid_coord ['A','7','\n'] = true
    ∧ valid_coord ['A','9'] = false := by
  decide

/-- C4: a successful placement appends exactly `ship.size` pairwise
distinct cells — the computed contiguous line from the origin — all
referencing the placed ship, leaves every other cell untouched, appends the
ship to the store, and increments the live-ship count by one. -/
theorem C4_placement_success (g : BattleGrid) (ship : Ship) (origin : Coord)
    (o : Orientation) (h : (place_ship g ship origin o).2 = none) :
    (place_ship g ship origin o).1.grid
        = g.grid ++ (placementCoords origin o ship.size).map
            (fun c => (c, ⟨c, some g.ships.length, []⟩))
    ∧ (placementCoords origin o ship.size).length = ship.size
    ∧ (placementCoords origin o ship.size).Nodup
    ∧ (place_ship g ship origin o).1.active_ship_count = g.active_ship_count + 1
    ∧ (place_ship g ship origin o).1.ships = g.ships ++ [ship] := by
  by_cases hvo : valid_coord origin
  · cases hval : validateCoords g (placementCoords origin o ship.size) with
    | some e =>
        rw [place_ship_eq_err hvo hval] at h
        cases h
    | none =>
        have hnd : (placementCoords origin o ship.size).Nodup := by
          apply calculate_coords_nodup (origin_x_nonneg hvo)
          intro c hc
          exact (validateCoords_none hval c hc).1
        rw [place_ship_of_validated hvo hval]
        exact ⟨rfl, placementCoords_length origin o ship.size, hnd, rfl, rfl⟩
  · rw [place_ship_eq_invalid (by simpa using hvo)] at h
    cases h

theorem C4_placement_success_witness :
    placementCoords ['C','5'] Orientation.PORTRAIT Ship.carrier.size
      = [['C','5'], ['D','5'], ['E','5'], ['F','5'], ['G','5']]
    ∧ ((place_ship BattleGrid.initial Ship.carrier ['C','5']
          Orientation.PORTRAIT).1.grid
        = BattleGrid.initial.grid
          ++ (placementCoords ['C','5'] Orientation.PORTRAIT Ship.carrier.size).map
              (fun c => (c, ⟨c, some BattleGrid.initial.ships.length, []⟩))
      ∧ (placementCoords ['C','5'] Orientation.PORTRAIT Ship.carrier.size).length
          = Ship.carrier.size
      ∧ (placementCoords ['C','5'] Orientation.PORTRAIT Ship.carrier.size).Nodup
      ∧ (place_ship BattleGrid.initial Ship.carrier ['C','5']
          Orientation.PORTRAIT).1.active_ship_count
          = BattleGrid.initial.active_ship_count + 1
      ∧ (place_ship BattleGrid.initial Ship.carrier ['C','5']
          Orientation.PORTRAIT).1.ships
          = BattleGrid.initial.ships ++ [Ship.carrier]) :=
  ⟨by decide, C4_placement_success BattleGrid.initial Ship.carrier ['C','5']
    Orientation.PORTRAIT (by decide)⟩


/-- C5: attacking a coordinate with no existing cell creates a miss cell
under that key and returns a miss outcome; a subsequent attack on the same
coordinate, and any attack on a cell already in the `'hit'` or `'miss'`
state, raises `AlreadyAttacked` naming the cell's coordinate. -/
theorem C5_miss_then_already_attacked (g : BattleGrid) (coord : Coord) :
    (lookupCell g.grid coord = none →
      receive_attack g coord
        = ({ g with grid := g.grid ++ [(coord, ⟨coord, none, missState⟩)] },
            Except.ok Outcome.miss)
      ∧ receive_attack (receive_attack g coord).1 coord
        = ((receive_attack g coord).1,
            Except.error (AttackErr.alreadyAttacked coord)))
    ∧ (∀ cell, lookupCell g.grid coord = some cell →
        (cell.state = hitState ∨ cell.state = missState) →
        receive_attack g coord
          = (g, Except.error (AttackErr.alreadyAttacked cell.coord))) := by
  constructor
  · intro h
    refine ⟨receive_attack_miss h, ?_⟩
    have hl2 : lookupCell (receive_attack g coord).1.grid coord
        = some ⟨coord, none, missState⟩ := by
      rw [receive_attack_miss h]
      show lookupCell (g.grid ++ [(coord, ⟨coord, none, missState⟩)]) coord = _
      rw [lookupCell_append_none h, lookupCell_cons, if_pos rfl]
    exact receive_attack_already hl2 (by simp [missState])
  · intro cell hl hstate
    have hne : cell.state ≠ [] := by
      rcases hstate with h | h <;> rw [h] <;> simp [hitState, missState]
    exact receive_attack_already hl hne

theorem C5_miss_then_already_attacked_witness :
    receive_attack BattleGrid.initial ['B','3']
      = ({ BattleGrid.initial with grid := BattleGrid.initial.grid
            ++ [(['B','3'], ⟨['B','3'], none, missState⟩)] },
          Except.ok Outcome.miss)
    ∧ receive_attack (receive_attack BattleGrid.initial ['B','3']).1 ['B','3']
      = ((receive_attack BattleGrid.initial ['B','3']).1,
          Except.error (AttackErr.alreadyAttacked ['B','3'])) :=
  (C5_miss_then_already_attacked BattleGrid.initial ['B','3']).1 rfl

/-- C6 (amended): in every state reachable from a fresh grid by legal
`place_ship`, `receive_attack` and `reset` operations (each placed ship a
freshly constructed ship of positive size), the live-ship count equals the
number of placed ships whose sunk condition is false, and every transition
of the count from nonzero to zero is caused either by `reset` or by an
attack that sinks the last remaining unsunk ship.  (The original claim that
the count reaches zero at most once over the whole sequence is refuted by
the counterexample.) -/
theorem C6_live_count_invariant (g : BattleGrid) (hr : Reachable g) :
    g.active_ship_count = (unsunkCount g.ships : Int)
    ∧ ∀ op : Op, LegalOp op → g.active_ship_count ≠ 0 →
        (step g op).active_ship_count = 0 →
        op = Op.resetOp ∨ ∃ c, op = Op.attackOp c ∧
          unsunkCount g.ships = 1 ∧ unsunkCount (step g op).ships = 0 := by
  have hInv := reachable_inv hr
  refine ⟨hInv.count_eq, ?_⟩
  intro op hop hnz hz
  have hInv2 := reachable_inv (Reachable.next op hr hop)
  have hc := hInv.count_eq
  have hc2 := hInv2.count_eq
  cases op with
  | resetOp => exact Or.inl rfl
  | attackOp c =>
      have hstep : step g (Op.attackOp c) = (receive_attack g c).1 := rfl
      rw [hstep] at hz hc2 ⊢
      have hb := unsunk_receive_attack g c
      refine Or.inr ⟨c, rfl, ?_, ?_⟩
      · omega
      · omega
  | place ship origin o =>
      exfalso
      have hstep : step g (Op.place ship origin o) = (place_ship g ship origin o).1 := rfl
      rw [hstep] at hz hc2
      by_cases hvo : valid_coord origin
      · cases hval : validateCoords g (placementCoords origin o ship.size) with
        | some e =>
            rw [place_ship_eq_err hvo hval] at hz
            exact hnz hz
        | none =>
            rw [place_ship_of_validated hvo hval] at hz
            have : g.active_ship_count + 1 = 0 := hz
            omega
      · rw [place_ship_eq_invalid (by simpa using hvo)] at hz
        exact hnz hz

theorem C6_live_count_invariant_witness :
    BattleGrid.initial.active_ship_count
        = (unsunkCount BattleGrid.initial.ships : Int)
    ∧ ∀ op : Op, LegalOp op → BattleGrid.initial.active_ship_count ≠ 0 →
        (step BattleGrid.initial op).active_ship_count = 0 →
        op = Op.resetOp ∨ ∃ c, op = Op.attackOp c ∧
          unsunkCount BattleGrid.initial.ships = 1 ∧
          unsunkCount (step BattleGrid.initial op).ships = 0 :=
  C6_live_count_invariant BattleGrid.initial Reachable.init

/-- The operation sequence of the C6 counterexample: place and sink the
Submarine, then place and sink the Destroyer. -/
def c6ops : List Op :=
  [Op.place Ship.submarine ['A','1'] Orientation.LANDSCAPE,
   Op.attackOp ['A','1'], Op.attackOp ['A','2'], Op.attackOp ['A','3'],
   Op.place Ship.destroyer ['C','7'] Orientation.PORTRAIT,
   Op.attackOp ['C','7'], Op.attackOp ['D','7']]

/-- C6 counterexample: a legal operation sequence (each ship placed once)
in which the live-ship count transitions from nonzero to zero twice — once
when the Submarine is sunk and again when the later-placed Destroyer is
sunk — refuting that the count reaches zero at most once over the
sequence. -/
theorem C6_count_zero_twice :
    (∀ op ∈ c6ops, LegalOp op)
    ∧ (runOps BattleGrid.initial (c6ops.take 3)).active_ship_count ≠ 0
    ∧ (runOps BattleGrid.initial (c6ops.take 4)).active_ship_count = 0
    ∧ (runOps BattleGrid.initial (c6ops.take 6)).active_ship_count ≠ 0
    ∧ (runOps BattleGrid.initial c6ops).active_ship_count = 0 := by
  refine ⟨?_, by decide, by decide, by decide, by decide⟩
  intro op hop
  simp only [c6ops, List.mem_cons, List.not_mem_nil, or_false] at hop
  rcases hop with rfl | rfl | rfl | rfl | rfl | rfl | rfl
  · exact ⟨rfl, by decide⟩
  · trivial
  · trivial
  · trivial
  · exact ⟨rfl, by decide⟩
  · trivial
  · trivial

/-- C7 (code bug): the `attempted` set is created once and never cleared,
so once it holds all `max_attempts = 128` pairs while ships remain
unplaced, the inner loop never runs again; the outer loop keeps resetting
the grid and refilling the fleet forever and `random_layout` never
completes — there is no fresh attempt budget, for any amount of fuel and
randomness. -/
theorem C7_exhausted_budget_diverges (ships : List Ship) (fuel : Nat)
    (stream : List Draw) (st : LayoutState) (hships : ships ≠ [])
    (hfull : max_attempts ≤ st.attempted.length)
    (hrem : st.shipsRemaining ≠ []) :
    randomLayoutLoop ships fuel stream st = none :=
  randomLayoutLoop_exhausted ships hships fuel stream st hfull hrem

theorem C7_exhausted_budget_diverges_witness :
    randomLayoutLoop [Ship.destroyer] 1000 []
      ⟨BattleGrid.initial,
        List.replicate 128 (['A','1'], Orientation.PORTRAIT),
        [Ship.destroyer]⟩ = none :=
  C7_exhausted_budget_diverges [Ship.destroyer] 1000 []
    ⟨BattleGrid.initial, List.replicate 128 (['A','1'], Orientation.PORTRAIT),
      [Ship.destroyer]⟩
    (by decide)
    (by show max_attempts
          ≤ (List.replicate 128 ((['A','1'] : Coord), Orientation.PORTRAIT)).length
        rw [List.length_replicate]
        decide)
    (by decide)

/-- C9: `receive_attack` performs no coordinate validation: for every
string not currently a key of the grid mapping — board coordinate or not —
it records a miss cell under that exact string and returns a miss
outcome. -/
theorem C9_receive_attack_no_validation (g : BattleGrid) (s : Coord)
    (h : lookupCell g.grid s = none) :
    receive_attack g s
      = ({ g with grid := g.grid ++ [(s, ⟨s, none, missState⟩)] },
          Except.ok Outcome.miss) :=
  receive_attack_miss h

theorem C9_receive_attack_no_validation_witness :
    (valid_coord ['Z','9'] = false
      ∧ receive_attack BattleGrid.initial ['Z','9']
        = ({ BattleGrid.initial with grid := BattleGrid.initial.grid
              ++ [(['Z','9'], ⟨['Z','9'], none, missState⟩)] },
            Except.ok Outcome.miss))
    ∧ (valid_coord ['h','e','l','l','o'] = false
      ∧ receive_attack BattleGrid.initial ['h','e','l','l','o']
        = ({ BattleGrid.initial with grid := BattleGrid.initial.grid
              ++ [(['h','e','l','l','o'], ⟨['h','e','l','l','o'], none, missState⟩)] },
            Except.ok Outcome.miss)) :=
  ⟨⟨by decide, C9_receive_attack_no_validation BattleGrid.initial ['Z','9'] rfl⟩,
   ⟨by decide, C9_receive_attack_no_validation BattleGrid.initial
      ['h','e','l','l','o'] rfl⟩⟩

/-- C10: in every reachable state, every existing grid cell either holds a
ship reference or is a miss cell, so attack resolution never reaches the
`self.ship.is_sunk()` dereference on a cell without a ship: no attack can
produce the `None`-dereference fault. -/
theorem C10_cells_ship_or_miss (g : BattleGrid) (hr : Reachable g) :
    (∀ kc ∈ g.grid, kc.2.ship.isSome = true ∨ kc.2.state = missState)
    ∧ ∀ coord : Coord,
        (receive_attack g coord).2 ≠ Except.error AttackErr.noneShipFault := by
  have hInv := reachable_inv hr
  constructor
  · intro kc hkc
    rcases hInv.cells kc hkc with ⟨sid, h1, -, -⟩ | ⟨-, h2⟩
    · left
      rw [h1]
      rfl
    · right
      exact h2
  · intro coord
    match hl : lookupCell g.grid coord with
    | none =>
        rw [receive_attack_miss hl]
        simp
    | some cell =>
        by_cases hs : cell.state = []
        · rcases hInv.cells _ (lookupCell_mem hl) with ⟨sid, h1, hlt, -⟩ | ⟨-, h2⟩
          · have hsh : g.ships[sid]? = some g.ships[sid] :=
              List.getElem?_eq_getElem hlt
            rw [receive_attack_hit_snd hl hs h1 hsh]
            simp
          · rw [h2] at hs
            simp [missState] at hs
        · rw [receive_attack_already hl hs]
          simp

theorem C10_cells_ship_or_miss_witness :
    (∀ kc ∈ (step BattleGrid.initial
        (Op.place Ship.submarine ['A','1'] Orientation.LANDSCAPE)).grid,
      kc.2.ship.isSome = true ∨ kc.2.state = missState)
    ∧ ∀ coord : Coord,
        (receive_attack (step BattleGrid.initial
          (Op.place Ship.submarine ['A','1'] Orientation.LANDSCAPE)) coord).2
          ≠ Except.error AttackErr.noneShipFault :=
  C10_cells_ship_or_miss _
    (Reachable.next (Op.place Ship.submarine ['A','1'] Orientation.LANDSCAPE)
      Reachable.init ⟨rfl, by decide⟩)


end Battleship
